import Mathlib

set_option maxRecDepth 8000
set_option maxHeartbeats 2000000

/-!
Verification development for `md_to_latex.py`, a Markdown-to-LaTeX converter.

The Python source is shallowly embedded: every pass of the conversion
pipeline (`convert_unicode_chars`, `convert_headings`, `convert_formatting`,
`convert_lists`, `preserve_whitespace`, `handle_blank_lines`,
`escape_latex_chars`, `add_latex_preamble`, `convert`) is translated to an
executable Lean function on `List Char` / `String`, keeping the source's
structure: `str.replace` becomes `replaceChar`, each `re.sub` call becomes a
left-to-right scanner implementing that regex's (lazy/greedy, lookaround)
semantics, and the line loop of `convert_lists` becomes a fold over the
split lines.  The command-line `main` and `convert_file` are modelled over
an in-memory file system.
-/

namespace MdToLatex

/-- Python `text.replace(c, repl)` for a single-character pattern `c`:
replaces every occurrence, left to right; replacement text is not rescanned.
(All `str.replace` calls in the source use single-character patterns.) -/
def replaceChar (c : Char) (repl : List Char) : List Char → List Char
  | [] => []
  | x :: xs => if x = c then repl ++ replaceChar c repl xs else x :: replaceChar c repl xs

/-- Python `text.split('\n')`: `splitNl "" = [""]`, every newline separates. -/
def splitNl : List Char → List (List Char)
  | [] => [[]]
  | c :: rest =>
    let r := splitNl rest
    if c = '\n' then [] :: r
    else
      match r with
      | h :: tl => (c :: h) :: tl
      | [] => [[c]]

/-- Python `'\n'.join(lines)`. -/
def joinNl : List (List Char) → List Char
  | [] => []
  | [l] => l
  | l :: ls => l ++ '\n' :: joinNl ls

/-- Python regex `\s` on a `str` pattern: ASCII whitespace together with the
Unicode whitespace code points recognised by CPython's `re` module. -/
def pyIsSpace (c : Char) : Bool :=
  c = ' ' || c = '\t' || c = '\n' || c = '\r' || c = '\x0b' || c = '\x0c' ||
  c = '\x1c' || c = '\x1d' || c = '\x1e' || c = '\x1f' || c = '\x85' || c = '\xa0' ||
  c = '\u1680' || ('\u2000' ≤ c && c ≤ '\u200a') || c = '\u2028' || c = '\u2029' ||
  c = '\u202f' || c = '\u205f' || c = '\u3000'

/-- The `unicode_map` dictionary from `__init__`, in insertion order. -/
def unicode_map : List (Char × String) := [
  ('ℕ', "\\mathbb\x7bN\x7d"),
  ('ℤ', "\\mathbb\x7bZ\x7d"),
  ('ℚ', "\\mathbb\x7bQ\x7d"),
  ('ℝ', "\\mathbb\x7bR\x7d"),
  ('ℂ', "\\mathbb\x7bC\x7d"),
  ('∅', "\\emptyset"),
  ('∈', "\\in"),
  ('∉', "\\notin"),
  ('⊆', "\\subseteq"),
  ('⊂', "\\subset"),
  ('⊇', "\\supseteq"),
  ('⊃', "\\supset"),
  ('∪', "\\cup"),
  ('∩', "\\cap"),
  ('∖', "\\setminus"),
  ('△', "\\triangle"),
  ('×', "\\times"),
  ('∧', "\\land"),
  ('∨', "\\lor"),
  ('¬', "\\neg"),
  ('→', "\\rightarrow"),
  ('↔', "\\leftrightarrow"),
  ('∀', "\\forall"),
  ('∃', "\\exists"),
  ('∄', "\\nexists"),
  ('≤', "\\leq"),
  ('≥', "\\geq"),
  ('≠', "\\neq"),
  ('≡', "\\equiv"),
  ('≈', "\\approx"),
  ('∞', "\\infty"),
  ('∑', "\\sum"),
  ('∏', "\\prod"),
  ('∫', "\\int"),
  ('∂', "\\partial"),
  ('∇', "\\nabla"),
  ('α', "\\alpha"), ('β', "\\beta"), ('γ', "\\gamma"),
  ('δ', "\\delta"), ('ε', "\\epsilon"), ('ζ', "\\zeta"),
  ('η', "\\eta"), ('θ', "\\theta"), ('ι', "\\iota"),
  ('κ', "\\kappa"), ('λ', "\\lambda"), ('μ', "\\mu"),
  ('ν', "\\nu"), ('ξ', "\\xi"), ('π', "\\pi"),
  ('ρ', "\\rho"), ('σ', "\\sigma"), ('τ', "\\tau"),
  ('υ', "\\upsilon"), ('φ', "\\phi"), ('χ', "\\chi"),
  ('ψ', "\\psi"), ('ω', "\\omega"),
  ('Α', "\\Alpha"), ('Β', "\\Beta"), ('Γ', "\\Gamma"),
  ('Δ', "\\Delta"), ('Ε', "\\Epsilon"), ('Ζ', "\\Zeta"),
  ('Η', "\\Eta"), ('Θ', "\\Theta"), ('Ι', "\\Iota"),
  ('Κ', "\\Kappa"), ('Λ', "\\Lambda"), ('Μ', "\\Mu"),
  ('Ν', "\\Nu"), ('Ξ', "\\Xi"), ('Π', "\\Pi"),
  ('Ρ', "\\Rho"), ('Σ', "\\Sigma"), ('Τ', "\\Tau"),
  ('Υ', "\\Upsilon"), ('Φ', "\\Phi"), ('Χ', "\\Chi"),
  ('Ψ', "\\Psi"), ('Ω', "\\Omega")]

/-- `convert_unicode_chars`, parameterised by the table the converter holds:
`for unicode_char, latex_cmd in self.unicode_map.items():
   text = text.replace(unicode_char, f'${latex_cmd}$')`. -/
def convert_unicode_charsWith (map : List (Char × String)) (t : List Char) : List Char :=
  map.foldl (fun acc p => replaceChar p.1 ('$' :: p.2.data ++ ['$']) acc) t

/-- `convert_unicode_chars` with the converter's fixed table. -/
def convert_unicode_charsL (t : List Char) : List Char :=
  convert_unicode_charsWith unicode_map t

/-- String-level `convert_unicode_chars`. -/
def convert_unicode_chars (s : String) : String :=
  ⟨convert_unicode_charsL s.data⟩

/-- One heading rewrite `re.sub(r'^#{k} (.+)$', cmd ++ '{\1}', line, MULTILINE)`
restricted to a single line: the line matches iff it starts with `k` hash
characters and a space and the remainder (which the greedy `(.+)` captures up
to the end of the line) is non-empty. -/
def headingSub (k : Nat) (cmd : List Char) (l : List Char) : List Char :=
  if l.take (k+1) = List.replicate k '#' ++ [' '] ∧ l.drop (k+1) ≠ [] then
    cmd ++ '\x7b' :: (l.drop (k+1) ++ ['\x7d'])
  else l

/-- A multiline heading `re.sub` pass: the pattern is anchored `^...$` and
`.` cannot cross a newline, so the pass acts line by line. -/
def headingPass (k : Nat) (cmd : List Char) (t : List Char) : List Char :=
  joinNl ((splitNl t).map (headingSub k cmd))

/-- `convert_headings`: the five `re.sub` passes, `#` first, `#####` last. -/
def convert_headingsL (t : List Char) : List Char :=
  headingPass 5 "\\subparagraph".data
    (headingPass 4 "\\paragraph".data
      (headingPass 3 "\\subsubsection".data
        (headingPass 2 "\\subsection".data
          (headingPass 1 "\\section".data t))))

/-- String-level `convert_headings`. -/
def convert_headings (s : String) : String :=
  ⟨convert_headingsL s.data⟩

/-- The section command of each heading depth (depth 1 = `\section`, … ,
depth 5 = `\subparagraph`), as the spec describes it. -/
def sectionCmd : Nat → List Char
  | 1 => "\\section".data
  | 2 => "\\subsection".data
  | 3 => "\\subsubsection".data
  | 4 => "\\paragraph".data
  | 5 => "\\subparagraph".data
  | _ => []

/-- Lazy-group close search for a pattern `open(.+?)close`: starting right
after the opening delimiter, find the shortest non-empty group of
non-newline characters followed by `close`; return the group and the text
after `close`.  `none` when the regex engine would fail at this start
position (a newline intervenes or `close` never occurs). -/
def lazyFind (close : List Char) : List Char → Option (List Char × List Char)
  | [] => none
  | c :: rest =>
    if c = '\n' then none
    else if close.isPrefixOf rest then some ([c], rest.drop close.length)
    else (lazyFind close rest).map (fun p => (c :: p.1, p.2))

/-- One `re.sub(open ++ (.+?) ++ close, cmd ++ '{\1}', text)` scanner without
lookarounds (bold, underline, superscript, subscript).  The engine scans left
to right, advances one character when no match starts at the current
position, and resumes after the replacement (replacements are not
rescanned).  `fuel` is instantiated with the input length; every step
consumes at least one input character. -/
def subScan (opn close cmd : List Char) : Nat → List Char → List Char
  | 0, l => l
  | fuel+1, l =>
    if opn.isPrefixOf l then
      match lazyFind close (l.drop opn.length) with
      | some (content, rest) =>
        cmd ++ '\x7b' :: (content ++ '\x7d' :: subScan opn close cmd fuel rest)
      | none =>
        match l with
        | [] => []
        | c :: r => c :: subScan opn close cmd fuel r
    else
      match l with
      | [] => []
      | c :: r => c :: subScan opn close cmd fuel r

/-- String-level wrapper for `subScan`. -/
def subRe (opn close cmd : String) (t : List Char) : List Char :=
  subScan opn.data close.data cmd.data t.length t

/-- Close search for the italic pattern `(?<!d)d([^d]+?)d(?!d)`, starting
right after the opening delimiter: the group is a non-empty run of
characters other than `d` (newlines allowed, as in the character class
`[^d]`), the closing `d` is therefore the first `d` that follows, and the
negative lookahead requires the character after it to differ from `d`.
`none` when no match can start here (no backtracking can help, because the
group may not contain `d`). -/
def italicFind (d : Char) : List Char → Option (List Char × List Char)
  | [] => none
  | c :: rest =>
    if c = d then none
    else
      match rest with
      | [] => none
      | r0 :: rtail =>
        if r0 = d then
          if rtail.head? = some d then none else some ([c], rtail)
        else (italicFind d rest).map (fun p => (c :: p.1, p.2))

/-- Scanner for `re.sub((?<!d)d([^d]+?)d(?!d), cmd ++ '{\1}', text)`.
`prev` is the character of the original text just before the current
position (for the negative lookbehind); after a replacement the scan resumes
after the closing delimiter, so `prev` becomes `d` there.  `fuel` is
instantiated with the input length. -/
def italicScan (d : Char) (cmd : List Char) : Nat → Option Char → List Char → List Char
  | 0, _, l => l
  | fuel+1, prev, l =>
    match l with
    | [] => []
    | c :: rest =>
      if c = d ∧ prev ≠ some d then
        match italicFind d rest with
        | some (content, rest') =>
          cmd ++ '\x7b' :: (content ++ '\x7d' :: italicScan d cmd fuel (some d) rest')
        | none => c :: italicScan d cmd fuel (some c) rest
      else c :: italicScan d cmd fuel (some c) rest

/-- String-level wrapper for one italic substitution pass. -/
def italicRe (d : Char) (cmd : String) (t : List Char) : List Char :=
  italicScan d cmd.data t.length none t

/-- `convert_formatting`: bold (`**`, then `__`), italic (`*`, then `_`),
underline, superscript, subscript — in source order. -/
def convert_formattingL (t : List Char) : List Char :=
  let t1 := subRe "**" "**" "\\textbf" t
  let t2 := subRe "__" "__" "\\textbf" t1
  let t3 := italicRe '*' "\\textit" t2
  let t4 := italicRe '_' "\\textit" t3
  let t5 := subRe "<u>" "</u>" "\\underline" t4
  let t6 := subRe "^" "^" "\\textsuperscript" t5
  subRe "~" "~" "\\textsubscript" t6

/-- String-level `convert_formatting`. -/
def convert_formatting (s : String) : String :=
  ⟨convert_formattingL s.data⟩

/-- Match of `re.match(r'^(\s*)[*+-] (.+)', line)`: maximal whitespace
prefix (group 1, returned as its length), one bullet marker, one space, and
a non-empty remainder (group 2, which the greedy `(.+)` extends to the end
of the line). -/
def bulletRe (l : List Char) : Option (Nat × List Char) :=
  let ws := l.takeWhile pyIsSpace
  let rest := l.dropWhile pyIsSpace
  match rest with
  | m :: ' ' :: t =>
    if (m = '*' ∨ m = '+' ∨ m = '-') ∧ t ≠ [] then some (ws.length, t) else none
  | _ => none

/-- Match of `re.match(r'^(\s*)\d+\. (.+)', line)`: maximal whitespace
prefix, at least one digit, a period, a space, and a non-empty remainder. -/
def enumRe (l : List Char) : Option (Nat × List Char) :=
  let rest := l.dropWhile pyIsSpace
  let ds := rest.takeWhile Char.isDigit
  let rest2 := rest.dropWhile Char.isDigit
  match rest2 with
  | '.' :: ' ' :: t =>
    if ds ≠ [] ∧ t ≠ [] then some ((l.takeWhile pyIsSpace).length, t) else none
  | _ => none

/-- An emitted `\item` line: the indent spaces `'  ' * (len(ws) // 2)`
followed by `\item ` and the item text. -/
def itemLine (n : Nat) (t : List Char) : List Char :=
  List.replicate (2 * (n / 2)) ' ' ++ "\\item ".data ++ t

/-- The line loop of `convert_lists` with its two flags `in_itemize` and
`in_enumerate`.  Note the source's order on a block transition: the opening
marker of the new environment is appended before the closing marker of the
other one. -/
def listsLoop : List (List Char) → Bool → Bool → List (List Char)
  | [], it, en =>
    (if it then ["\\end\x7bitemize\x7d".data] else []) ++
    (if en then ["\\end\x7benumerate\x7d".data] else [])
  | l :: ls, it, en =>
    match bulletRe l with
    | some (n, t) =>
      (if it then [] else ["\\begin\x7bitemize\x7d".data]) ++
      (if en then ["\\end\x7benumerate\x7d".data] else []) ++
      itemLine n t :: listsLoop ls true false
    | none =>
      match enumRe l with
      | some (n, t) =>
        (if en then [] else ["\\begin\x7benumerate\x7d".data]) ++
        (if it then ["\\end\x7bitemize\x7d".data] else []) ++
        itemLine n t :: listsLoop ls false true
      | none =>
        (if it then ["\\end\x7bitemize\x7d".data] else []) ++
        (if en then ["\\end\x7benumerate\x7d".data] else []) ++
        l :: listsLoop ls false false

/-- `convert_lists`: split into lines, run the loop, join with newlines. -/
def convert_listsL (t : List Char) : List Char :=
  joinNl (listsLoop (splitNl t) false false)

/-- String-level `convert_lists`. -/
def convert_lists (s : String) : String :=
  ⟨convert_listsL s.data⟩

/-! The source writes `'\\hspace{' + str(len(m.group(0)) * 0.3) + 'em}'`.
`len * 0.3` is IEEE-754 double arithmetic and `str` is CPython's
shortest round-tripping decimal rendering, both of which are modelled
exactly below on unbounded naturals: a finite positive double is a pair
mantissa/exponent, rounding is round-to-nearest, ties-to-even on a 53-bit
significand, and the rendering searches for the least number of significant
digits whose nearest decimal round-trips.  The model covers the full finite
normal range of positive doubles and the fixed-notation regime of `str`
(magnitudes below 10^16, i.e. every run length a real input can have);
overflow to infinity, subnormals and scientific notation are outside the
inputs this program can feed the formula. -/

/-- Number of binary digits of `n` (0 for 0); fuel-based so that the kernel
evaluates it by plain structural recursion. -/
def bitlenAux : Nat → Nat → Nat
  | 0, _ => 0
  | f+1, n => if n = 0 then 0 else bitlenAux f (n / 2) + 1

/-- Number of binary digits of `n`. -/
def bitlen (n : Nat) : Nat := bitlenAux n n

/-- Number of decimal digits of `n` (0 for 0). -/
def diglenAux : Nat → Nat → Nat
  | 0, _ => 0
  | f+1, n => if n = 0 then 0 else diglenAux f (n / 10) + 1

/-- Number of decimal digits of `n`. -/
def diglen (n : Nat) : Nat := diglenAux n n

/-- Round the fraction `a / b` to the nearest integer, ties to even. -/
def rne (a b : Nat) : Nat :=
  let q := a / b
  let r := a % b
  if 2 * r < b then q else if b < 2 * r then q + 1 else if q % 2 = 0 then q else q + 1

/-- Floor of the base-2 logarithm of `a / b` (for `a, b ≥ 1`). -/
def flog2 (a b : Nat) : Int :=
  let d : Int := (bitlen a : Int) - (bitlen b : Int)
  if 0 ≤ d then (if b * 2 ^ d.toNat ≤ a then d else d - 1)
  else (if b ≤ a * 2 ^ (-d).toNat then d else d - 1)

/-- Floor of the base-10 logarithm of `a / b` (for `a, b ≥ 1`). -/
def flog10 (a b : Nat) : Int :=
  let d : Int := (diglen a : Int) - (diglen b : Int)
  if 0 ≤ d then (if b * 10 ^ d.toNat ≤ a then d else d - 1)
  else (if b ≤ a * 10 ^ (-d).toNat then d else d - 1)

/-- A finite non-negative double value `m * 2 ^ e`. -/
structure Dbl where
  m : Nat
  e : Int
  deriving Repr, DecidableEq

/-- Value equality of two `Dbl` representations. -/
def Dbl.sameVal (x y : Dbl) : Bool :=
  if x.e ≤ y.e then x.m = y.m * 2 ^ (y.e - x.e).toNat
  else x.m * 2 ^ (x.e - y.e).toNat = y.m

/-- The double nearest to the fraction `a / b` (round to a 53-bit
significand, ties to even). -/
def roundToDbl (a b : Nat) : Dbl :=
  if a = 0 then ⟨0, 0⟩
  else
    let e : Int := flog2 a b - 52
    if 0 ≤ e then ⟨rne a (b * 2 ^ e.toNat), e⟩ else ⟨rne (a * 2 ^ (-e).toNat) b, e⟩

/-- Correctly rounded double multiplication. -/
def mulDbl (x y : Dbl) : Dbl :=
  let m := x.m * y.m
  let e := x.e + y.e
  if 0 ≤ e then roundToDbl (m * 2 ^ e.toNat) 1 else roundToDbl m (2 ^ (-e).toNat)

/-- The double value of the Python expression `k * 0.3`: the integer `k` is
converted to the nearest double, the literal `0.3` parses to the double
nearest 3/10, and the product is rounded once. -/
def pyMul03 (k : Nat) : Dbl :=
  mulDbl (roundToDbl k 1) (roundToDbl 3 10)

/-- Numerator of the exact rational value of a `Dbl`. -/
def Dbl.num (x : Dbl) : Nat :=
  if 0 ≤ x.e then x.m * 2 ^ x.e.toNat else x.m

/-- Denominator of the exact rational value of a `Dbl`. -/
def Dbl.den (x : Dbl) : Nat :=
  if 0 ≤ x.e then 1 else 2 ^ (-x.e).toNat

/-- The decimal with `p` significant digits nearest to `a / b`, as a pair
`(c, t)` denoting `c * 10 ^ (-t)`. -/
def reprCandidate (a b : Nat) (p : Nat) : Nat × Int :=
  let t : Int := (p : Int) - 1 - flog10 a b
  let c := if 0 ≤ t then rne (a * 10 ^ t.toNat) b else rne a (b * 10 ^ (-t).toNat)
  (c, t)

/-- Shortest-repr search: the least `p ∈ [1, 17]` whose nearest `p`-digit
decimal rounds back to the double `v`; counts `p` up as the fuel counts
down from 17. -/
def searchShortest (a b : Nat) (v : Dbl) : Nat → Nat × Int
  | 0 => reprCandidate a b 17
  | f+1 =>
    let p := 18 - (f+1)
    let (c, t) := reprCandidate a b p
    let cv : Nat × Nat := if 0 ≤ t then (c, 10 ^ t.toNat) else (c * 10 ^ (-t).toNat, 1)
    if (roundToDbl cv.1 cv.2).sameVal v then (c, t) else searchShortest a b v f

/-- Decimal digit character. -/
def digitChar (n : Nat) : Char := Char.ofNat (48 + n)

/-- Decimal digit list of `n`. -/
def natDigitsAux : Nat → Nat → List Char
  | 0, _ => []
  | f+1, n => if n < 10 then [digitChar n] else natDigitsAux f (n / 10) ++ [digitChar (n % 10)]

/-- Decimal digit list of `n`, most significant first. -/
def natDigits (n : Nat) : List Char := natDigitsAux (n + 1) n

/-- Fixed-notation rendering of `c * 10 ^ (-t)` the way CPython prints a
float in the non-scientific regime (a trailing `.0` on integral values). -/
def formatFixed (c : Nat) (t : Int) : List Char :=
  let ds := natDigits c
  if t ≤ 0 then ds ++ List.replicate (-t).toNat '0' ++ ".0".data
  else
    let tn := t.toNat
    if tn < ds.length then ds.take (ds.length - tn) ++ '.' :: ds.drop (ds.length - tn)
    else "0.".data ++ List.replicate (tn - ds.length) '0' ++ ds

/-- The Python string `str(k * 0.3)`. -/
def pyStrMul03 (k : Nat) : List Char :=
  let v := pyMul03 k
  if v.m = 0 then "0.0".data
  else
    let ct := searchShortest v.num v.den v 17
    formatFixed ct.1 ct.2

/-- `text.expandtabs(4)`: each tab becomes the spaces needed to reach the
next multiple-of-4 column; the column count restarts after `\n` and `\r`. -/
def expandTabsAux : Nat → List Char → List Char
  | _, [] => []
  | col, c :: rest =>
    if c = '\t' then List.replicate (4 - col % 4) ' ' ++ expandTabsAux (col + (4 - col % 4)) rest
    else if c = '\n' ∨ c = '\r' then c :: expandTabsAux 0 rest
    else c :: expandTabsAux (col + 1) rest

/-- `re.sub(r' {2,}', lambda m: '\hspace{' + str(len(m.group(0)) * 0.3) + 'em}', text)`:
every maximal run of two or more spaces becomes an `\hspace` command;
single spaces stay. -/
def collapseAux : Nat → List Char → List Char
  | 0, l => l
  | fuel+1, l =>
    match l with
    | [] => []
    | c :: rest =>
      if c = ' ' then
        let sp := rest.takeWhile (fun x => x = ' ')
        let rest' := rest.dropWhile (fun x => x = ' ')
        if sp.length + 1 ≥ 2 then
          "\\hspace\x7b".data ++ pyStrMul03 (sp.length + 1) ++ "em\x7d".data ++ collapseAux fuel rest'
        else ' ' :: collapseAux fuel rest'
      else c :: collapseAux fuel rest

/-- The space-run pass on a whole text; `fuel` instantiated with the length. -/
def collapseSpaces (t : List Char) : List Char :=
  collapseAux t.length t

/-- `preserve_whitespace`: expand tabs, then collapse space runs. -/
def preserve_whitespaceL (t : List Char) : List Char :=
  collapseSpaces (expandTabsAux 0 t)

/-- String-level `preserve_whitespace`. -/
def preserve_whitespace (s : String) : String :=
  ⟨preserve_whitespaceL s.data⟩

/-- The replacement string of `handle_blank_lines`
(`'\n\n\vspace{\baselineskip}\n\n'` after the `re.sub` template escapes). -/
def vspaceRepl : List Char :=
  "\n\n\\vspace\x7b\\baselineskip\x7d\n\n".data

/-- `re.sub(r'\n\s*\n\s*\n+', ..., text)` scanner.  A match starts at a
newline whose maximal whitespace run contains at least three newlines and
extends (greedily) to the last newline of that run; scanning resumes after
the match.  `fuel` is instantiated with the input length. -/
def blankScan : Nat → List Char → List Char
  | 0, l => l
  | fuel+1, l =>
    match l with
    | [] => []
    | c :: rest =>
      if c = '\n' then
        let ws := rest.takeWhile pyIsSpace
        let rest' := rest.dropWhile pyIsSpace
        if 2 ≤ ws.count '\n' then
          let trailing := (ws.reverse.takeWhile (fun x => ¬ x = '\n')).reverse
          vspaceRepl ++ blankScan fuel (trailing ++ rest')
        else c :: blankScan fuel rest
      else c :: blankScan fuel rest

/-- `handle_blank_lines`. -/
def handle_blank_linesL (t : List Char) : List Char :=
  blankScan t.length t

/-- String-level `handle_blank_lines`. -/
def handle_blank_lines (s : String) : String :=
  ⟨handle_blank_linesL s.data⟩

/-- The `escape_chars` dictionary of `escape_latex_chars`, in insertion
order. -/
def escape_chars : List (Char × String) := [
  ('&', "\\&"),
  ('%', "\\%"),
  ('$', "\\$"),
  ('#', "\\#"),
  ('^', "\\textasciicircum\x7b\x7d"),
  ('_', "\\_"),
  ('\x7b', "\\\x7b"),
  ('\x7d', "\\\x7d"),
  ('~', "\\textasciitilde\x7b\x7d"),
  ('\\', "\\textbackslash\x7b\x7d")]

/-- `escape_latex_chars`: apply each replacement in dictionary order, with
the source's `continue` skipping `$`, `^`, `_` and `~`. -/
def escape_latex_charsL (t : List Char) : List Char :=
  escape_chars.foldl
    (fun acc p =>
      if p.1 = '$' ∨ p.1 = '^' ∨ p.1 = '_' ∨ p.1 = '~' then acc
      else replaceChar p.1 p.2.data acc)
    t

/-- String-level `escape_latex_chars`. -/
def escape_latex_chars (s : String) : String :=
  ⟨escape_latex_charsL s.data⟩

/-- The fixed preamble of `add_latex_preamble`. -/
def latexPreamble : String :=
  "\\documentclass\x7barticle\x7d\n\\usepackage[utf8]\x7binputenc\x7d\n\\usepackage\x7bamsmath\x7d\n\\usepackage\x7bamsfonts\x7d\n\\usepackage\x7bamssymb\x7d\n\\usepackage[normalem]\x7bulem\x7d\n\n\\begin\x7bdocument\x7d\n\n"

/-- The fixed postamble of `add_latex_preamble`. -/
def latexPostamble : String := "\n\\end\x7bdocument\x7d"

/-- `add_latex_preamble`. -/
def add_latex_preamble (content : String) : String :=
  latexPreamble ++ content ++ latexPostamble

/-- The converter object: its only attribute is the symbol table built once
by `__init__` and read (never written) by the conversion passes. -/
structure MarkdownToLatexConverter where
  unicode_map : List (Char × String)

/-- `MarkdownToLatexConverter()`. -/
def newConverter : MarkdownToLatexConverter := ⟨unicode_map⟩

/-- Steps 2–7 of `convert`, reading the table from the converter. -/
def pipelineWith (map : List (Char × String)) (t : List Char) : List Char :=
  escape_latex_charsL
    (handle_blank_linesL
      (preserve_whitespaceL
        (convert_listsL
          (convert_formattingL
            (convert_headingsL
              (convert_unicode_charsWith map t))))))

/-- The `convert` method: the pipeline, then the optional document wrapper.
The method assigns no attribute of `self`; the pair returned is (converter
state after the call, returned string). -/
def convertMethod (c : MarkdownToLatexConverter) (s : String) (add_document_structure : Bool) :
    MarkdownToLatexConverter × String :=
  let text : String := ⟨pipelineWith c.unicode_map s.data⟩
  (c, if add_document_structure then add_latex_preamble text else text)

/-- `convert` as the program calls it, on a fresh converter. -/
def convert (s : String) (add_document_structure : Bool) : String :=
  (convertMethod newConverter s add_document_structure).2

/-! Command-line surface.  Files are modelled as an in-memory association
list from path to text; reading a missing path raises (`FileNotFoundError`
from the explicit `exists()` check, or `OSError` from `open`), writing
always succeeds. -/

/-- In-memory file system. -/
def FileSys := List (String × String)

/-- Contents at a path, if the file exists. -/
def readFS (fs : FileSys) (p : String) : Option String :=
  (List.find? (fun e => e.1 = p) fs).map (fun e => e.2)

/-- Write (create or overwrite) a file. -/
def writeFS (fs : FileSys) (p : String) (c : String) : FileSys :=
  (p, c) :: (List.filter (fun e => ¬ e.1 = p) fs : FileSys)

/-- Drop a file name's final extension: everything from the last dot on,
unless there is no dot or the last dot is the leading character. -/
def dropExt (name : List Char) : List Char :=
  let revAfter := name.reverse.takeWhile (fun c => ¬ c = '.')
  if revAfter.length = name.length then name
  else
    let stemLen := name.length - revAfter.length - 1
    if stemLen = 0 then name else name.take stemLen

/-- `pathlib.Path(p).with_suffix('.tex')` for ordinary file names: in the
last path segment the final extension (if any) is replaced by `.tex`;
without one, `.tex` is appended. -/
def withSuffixTex (p : String) : String :=
  let name := (p.data.reverse.takeWhile (fun c => ¬ c = '/')).reverse
  let dir := p.data.take (p.data.length - name.length)
  ⟨dir ++ dropExt name ++ ".tex".data⟩

/-- `convert_file(self, input_path, output_path=None)`: check existence,
default the output path, read, convert with the document wrapper, write;
returns the updated file system and the output path. -/
def convert_file (fs : FileSys) (input_path : String) (output_path : Option String) :
    Except String (FileSys × String) :=
  match readFS fs input_path with
  | none => .error "FileNotFoundError"
  | some content =>
    let out := match output_path with
      | none => withSuffixTex input_path
      | some p => p
    .ok (writeFS fs out (convert content true), out)

/-- Maximum number of positional arguments (after `self`) accepted by
`def convert_file(self, input_path, output_path=None)`. -/
def convertFileMaxArgs : Nat := 2

/-- Number of positional arguments `main` passes in
`converter.convert_file(args.input, output_file, args.template)`. -/
def mainCallArgs : Nat := 3

/-- Parsed command-line arguments (`argparse` yields `None` for an absent
optional argument). -/
structure CliArgs where
  input : String
  output : Option String
  output_file : Option String
  template : Option String
  no_document : Bool

/-- Whether `pat` occurs as a contiguous substring of `l`. -/
def occursIn (pat : List Char) : List Char → Bool
  | [] => pat.isEmpty
  | c :: rest => pat.isPrefixOf (c :: rest) || occursIn pat rest

/-- Numeric value of a decimal digit string. -/
def natOfDigits (l : List Char) : Nat :=
  l.foldl (fun a c => 10 * a + (c.toNat - 48)) 0

/-- Exact rational value of a decimal numeral `ip.fp`, as an unreduced
numerator/denominator pair. -/
def decFracNum (s : String) : Nat × Nat :=
  match s.data.splitOn '.' with
  | [ip, fp] => (natOfDigits ip * 10 ^ fp.length + natOfDigits fp, 10 ^ fp.length)
  | _ => (natOfDigits s.data, 1)

/-- `main()`: exit code and resulting file system.  In the `--no-document`
branch the content is converted without the wrapper and written (or printed
when no output path is given).  In the default branch `main` passes three
positional arguments to `convert_file`, which accepts at most two, so
Python raises `TypeError` at the call — before any file access — and the
top-level `except` prints the message and exits with code 1. -/
def runMain (fs : FileSys) (a : CliArgs) : Nat × FileSys :=
  let output_file := match a.output with
    | some p => some p
    | none => a.output_file
  if a.no_document then
    match readFS fs a.input with
    | none => (1, fs)
    | some content =>
      let latex := convert content false
      match output_file with
      | some p => (0, writeFS fs p latex)
      | none => (0, fs)
  else
    if mainCallArgs ≤ convertFileMaxArgs then
      match convert_file fs a.input output_file with
      | .ok r => (0, r.1)
      | .error _ => (1, fs)
    else (1, fs)

/-! ### Helper lemmas -/

theorem takeWhile_app_of_all (p : Char → Bool) (ws : List Char) (m : Char) (r : List Char)
    (h : ∀ c ∈ ws, p c = true) (hm : p m = false) :
    (ws ++ m :: r).takeWhile p = ws := by
  induction ws with
  | nil => simp [List.takeWhile_cons, hm]
  | cons c cs ih =>
    have hc : p c = true := h c (List.mem_cons_self c cs)
    simp only [List.cons_append, List.takeWhile_cons, hc, if_true]
    rw [ih (fun x hx => h x (List.mem_cons_of_mem c hx))]

theorem dropWhile_app_of_all (p : Char → Bool) (ws : List Char) (m : Char) (r : List Char)
    (h : ∀ c ∈ ws, p c = true) (hm : p m = false) :
    (ws ++ m :: r).dropWhile p = m :: r := by
  induction ws with
  | nil => simp [List.dropWhile_cons, hm]
  | cons c cs ih =>
    have hc : p c = true := h c (List.mem_cons_self c cs)
    simp only [List.cons_append, List.dropWhile_cons, hc, if_true]
    exact ih (fun x hx => h x (List.mem_cons_of_mem c hx))

theorem splitNl_no_nl : ∀ (l : List Char), '\n' ∉ l → splitNl l = [l]
  | [], _ => rfl
  | c :: cs, h => by
    have hc : ¬ c = '\n' := fun e => h (e ▸ List.mem_cons_self c cs)
    have ih := splitNl_no_nl cs (fun m => h (List.mem_cons_of_mem c m))
    simp [splitNl, hc, ih]

theorem headingSub_match (k : Nat) (cmd T : List Char) (h3 : T ≠ []) :
    headingSub k cmd (List.replicate k '#' ++ ' ' :: T) = cmd ++ '\x7b' :: (T ++ ['\x7d']) := by
  have hlen : (List.replicate k '#' ++ [' ']).length = k + 1 := by simp
  have harr : List.replicate k '#' ++ ' ' :: T = (List.replicate k '#' ++ [' ']) ++ T := by simp
  have htake : (List.replicate k '#' ++ ' ' :: T).take (k+1) = List.replicate k '#' ++ [' '] := by
    rw [harr, List.take_left' hlen]
  have hdrop : (List.replicate k '#' ++ ' ' :: T).drop (k+1) = T := by
    rw [harr, List.drop_left' hlen]
  unfold headingSub
  rw [htake, hdrop, if_pos ⟨rfl, h3⟩]

theorem headingSub_pre (j k : Nat) (cmd T : List Char) (hjk : j < k) :
    headingSub j cmd (List.replicate k '#' ++ ' ' :: T) = List.replicate k '#' ++ ' ' :: T := by
  unfold headingSub
  rw [if_neg]
  rintro ⟨h1, -⟩
  have hle : j + 1 ≤ (List.replicate k '#').length := by simp; omega
  rw [List.take_append_of_le_length hle, List.take_replicate] at h1
  have hmem : (' ' : Char) ∈ List.replicate (min (j+1) k) '#' := by rw [h1]; simp
  exact absurd (List.eq_of_mem_replicate hmem) (by decide)

theorem headingSub_ne_hash (k : Nat) (cmd : List Char) (c : Char) (l : List Char)
    (hq : ¬ c = '#') (hq2 : ¬ c = ' ') :
    headingSub k cmd (c :: l) = c :: l := by
  unfold headingSub
  rw [if_neg]
  rintro ⟨h1, -⟩
  cases k with
  | zero =>
    simp only [List.replicate, List.nil_append, List.take_succ_cons, List.take_zero,
      List.cons.injEq] at h1
    exact hq2 h1.1
  | succ n =>
    simp only [List.replicate_succ, List.cons_append, List.take_succ_cons,
      List.cons.injEq] at h1
    exact hq h1.1

theorem headingSub_no_nl (k : Nat) (cmd l : List Char) (hc : '\n' ∉ cmd) (h : '\n' ∉ l) :
    '\n' ∉ headingSub k cmd l := by
  unfold headingSub
  split
  · intro hm
    rcases List.mem_append.mp hm with h1 | h2
    · exact hc h1
    · rcases List.mem_cons.mp h2 with h3 | h4
      · exact absurd h3 (by decide)
      · rcases List.mem_append.mp h4 with h5 | h6
        · exact h (List.drop_subset _ _ h5)
        · exact absurd (List.mem_singleton.mp h6) (by decide)
  · exact h

theorem headingPass_single (k : Nat) (cmd l : List Char) (h : '\n' ∉ l) :
    headingPass k cmd l = headingSub k cmd l := by
  rw [headingPass, splitNl_no_nl l h]
  rfl

theorem convert_headingsL_line (l : List Char) (h : '\n' ∉ l) :
    convert_headingsL l =
      headingSub 5 "\\subparagraph".data
        (headingSub 4 "\\paragraph".data
          (headingSub 3 "\\subsubsection".data
            (headingSub 2 "\\subsection".data
              (headingSub 1 "\\section".data l)))) := by
  have h1 := headingSub_no_nl 1 "\\section".data l (by decide) h
  have h2 := headingSub_no_nl 2 "\\subsection".data _ (by decide) h1
  have h3 := headingSub_no_nl 3 "\\subsubsection".data _ (by decide) h2
  have h4 := headingSub_no_nl 4 "\\paragraph".data _ (by decide) h3
  rw [convert_headingsL, headingPass_single 1 _ l h, headingPass_single 2 _ _ h1,
    headingPass_single 3 _ _ h2, headingPass_single 4 _ _ h3, headingPass_single 5 _ _ h4]

theorem bulletRe_app (ws t : List Char) (m : Char)
    (hws : ∀ c ∈ ws, pyIsSpace c = true) (hm : m = '*' ∨ m = '+' ∨ m = '-') (ht : t ≠ []) :
    bulletRe (ws ++ m :: ' ' :: t) = some (ws.length, t) := by
  have hmns : pyIsSpace m = false := by rcases hm with h | h | h <;> subst h <;> rfl
  unfold bulletRe
  rw [takeWhile_app_of_all pyIsSpace ws m _ hws hmns,
    dropWhile_app_of_all pyIsSpace ws m _ hws hmns]
  show (if (m = '*' ∨ m = '+' ∨ m = '-') ∧ t ≠ [] then some (ws.length, t) else none)
      = some (ws.length, t)
  rw [if_pos ⟨hm, ht⟩]

/-! ### Claim theorems -/

/-- C1: the claim says an invocation without `--no-document` on an existing
readable input succeeds, writes the output file and exits 0.  In the code,
`main` passes three positional arguments to `convert_file`, which accepts at
most two, so every such invocation raises `TypeError`, is caught by the
top-level handler, exits with code 1 and writes nothing — for every file
system and every argument vector with `no_document` unset. -/
theorem claim_C1_default_branch_always_fails (fs : FileSys) (a : CliArgs)
    (h : a.no_document = false) :
    runMain fs a = (1, fs) := by
  simp [runMain, h, mainCallArgs, convertFileMaxArgs]

/-- C1 witness: a concrete invocation `md_to_latex.py in.md` with `in.md`
present and readable still exits 1 and leaves the file system unchanged. -/
theorem claim_C1_witness :
    runMain [("in.md", "hello")] ⟨"in.md", none, none, none, false⟩
      = (1, [("in.md", "hello")]) :=
  claim_C1_default_branch_always_fails [("in.md", "hello")] ⟨"in.md", none, none, none, false⟩ rfl

/-- C2: the claim says the final escaping pass leaves every
previously-emitted command intact.  In the code the pass rewrites the
braces and then every backslash (`\ ↦ \textbackslash{}`) of the emitted
commands: converting `# Hi` yields a mangled `\section`, and the emitted
command `\section{Hi}` does not survive `escape_latex_chars` and does not
occur in the final output. -/
theorem claim_C2_escape_clobbers_commands :
    convert "# Hi" false = "\\textbackslash\x7b\x7dsection\\textbackslash\x7b\x7d\x7bHi\\textbackslash\x7b\x7d\x7d" ∧
    escape_latex_chars "\\section\x7bHi\x7d" = "\\textbackslash\x7b\x7dsection\\textbackslash\x7b\x7d\x7bHi\\textbackslash\x7b\x7d\x7d" ∧
    occursIn "\\section\x7bHi\x7d".data (convert "# Hi" false).data = false ∧
    occursIn "\\begin\x7bitemize\x7d".data (convert "- a" false).data = false := by
  refine ⟨by decide, by decide, by decide, by decide⟩

/-- C3: symbol substitution alone does wrap every table symbol (and every
occurrence) in `$...$` with its replacement, but the claim is about the
full conversion, whose final escaping pass mangles the replacement:
converting the single character `ℕ` does not yield `$\mathbb{N}$`. -/
theorem claim_C3_symbol_substitution :
    (∀ p ∈ unicode_map, convert_unicode_charsL [p.1] = '$' :: p.2.data ++ ['$']) ∧
    convert_unicode_chars "aℕbℕ" = "a$\\mathbb\x7bN\x7d$b$\\mathbb\x7bN\x7d$" ∧
    convert "ℕ" false = "$\\textbackslash\x7b\x7dmathbb\\textbackslash\x7b\x7d\x7bN\\textbackslash\x7b\x7d\x7d$" ∧
    convert "ℕ" false ≠ "$\\mathbb\x7bN\x7d$" := by
  refine ⟨by decide, by decide, by decide, by decide⟩

/-- C4: the claim says a block transition emits the closing marker of the
open block before the opening marker of the new one.  The code appends the
opening marker first: a bullet block followed by a numbered line yields
`\begin{enumerate}` before `\end{itemize}` (and symmetrically), while a
non-list line does close the open block before being emitted. -/
theorem claim_C4_transition_order :
    convert_lists "- a\n1. b"
      = "\\begin\x7bitemize\x7d\n\\item a\n\\begin\x7benumerate\x7d\n\\end\x7bitemize\x7d\n\\item b\n\\end\x7benumerate\x7d" ∧
    convert_lists "1. a\n- b"
      = "\\begin\x7benumerate\x7d\n\\item a\n\\begin\x7bitemize\x7d\n\\end\x7benumerate\x7d\n\\item b\n\\end\x7bitemize\x7d" ∧
    convert_lists "- a\nx" = "\\begin\x7bitemize\x7d\n\\item a\n\\end\x7bitemize\x7d\nx" := by
  refine ⟨by decide, by decide, by decide⟩

/-- C6: bold converts before italic: on `**a** *b*` the formatting pass
produces a bold span for `a` and an italic span for `b`, and the italic
pass alone leaves `**a**` untouched (its lookarounds reject a delimiter
adjacent to an identical delimiter), so no part of the bold span is
italic-wrapped. -/
theorem claim_C6_bold_before_italic :
    convert_formatting "**a** *b*" = "\\textbf\x7ba\x7d \\textit\x7bb\x7d" ∧
    String.mk (italicRe '*' "\\textit" "**a**".data) = "**a**" ∧
    convert_formatting "**a**" = "\\textbf\x7ba\x7d" := by
  refine ⟨by decide, by decide, by decide⟩

/-- C8 counterexample: the hspace command emitted for a run of three spaces
carries the size numeral `0.8999999999999999`, whose value differs from
0.3 × 3 = 0.9, so the emitted size is not `0.3 size-units multiplied by the
run length`. -/
theorem claim_C8_counterexample :
    preserve_whitespace "   " = "\\hspace\x7b0.8999999999999999em\x7d" ∧
    preserve_whitespace "   " ≠ "\\hspace\x7b0.9em\x7d" ∧
    (decFracNum (String.mk (pyStrMul03 3))).1 * 10 ≠ 9 * (decFracNum (String.mk (pyStrMul03 3))).2 := by
  refine ⟨by decide, by decide, by decide⟩

/-- C8 amended: tabs expand to 4-column-aligned spaces and every maximal
run of `k ≥ 2` spaces becomes a horizontal-space command, but the size is
the shortest round-tripping decimal of the IEEE-754 double product
`k * 0.3` — approximately 0.3 per space (within 10⁻¹³ for k ≤ 30), equal
to it only when representable: `k = 2` gives `0.6em`, `k = 3` gives
`0.8999999999999999em`. -/
theorem claim_C8_amended :
    preserve_whitespace "a\tb" = "a\\hspace\x7b0.8999999999999999em\x7db" ∧
    preserve_whitespace "ab\tc" = "ab\\hspace\x7b0.6em\x7dc" ∧
    preserve_whitespace "a  b" = "a\\hspace\x7b0.6em\x7db" ∧
    preserve_whitespace "a b" = "a b" ∧
    (∀ k ∈ List.range 31, 2 ≤ k →
      (if 3 * k * (decFracNum (String.mk (pyStrMul03 k))).2 ≤ 10 * (decFracNum (String.mk (pyStrMul03 k))).1
        then 10 * (decFracNum (String.mk (pyStrMul03 k))).1 - 3 * k * (decFracNum (String.mk (pyStrMul03 k))).2
        else 3 * k * (decFracNum (String.mk (pyStrMul03 k))).2 - 10 * (decFracNum (String.mk (pyStrMul03 k))).1)
          * 10 ^ 13 ≤ 10 * (decFracNum (String.mk (pyStrMul03 k))).2) := by
  refine ⟨by decide, by decide, by decide, by decide, by decide⟩

/-- C9: conversion is deterministic and stateless: the `convert` method
returns the converter unchanged, the symbol table it holds is never
mutated, a second call on the returned state with the same text and flag
gives the same output, and the table a fresh converter holds is the fixed
`unicode_map`. -/
theorem claim_C9_stateless_deterministic (c : MarkdownToLatexConverter) (s : String) (f : Bool) :
    (convertMethod c s f).1 = c ∧
    (convertMethod c s f).1.unicode_map = c.unicode_map ∧
    (convertMethod (convertMethod c s f).1 s f).2 = (convertMethod c s f).2 ∧
    newConverter.unicode_map = unicode_map :=
  ⟨rfl, rfl, rfl, rfl⟩

/-- C7: the heading pass itself maps a line of k `#` (1 ≤ k ≤ 5), a space
and non-empty text T to the section command of depth k containing T,
anchored to the full line; but the claim speaks of converting the line, and
the full conversion's final escaping pass then mangles the command:
converting `# Hi` leaves no `\section` in the output. -/
theorem claim_C7_heading_depths (k : Nat) (T : List Char) (hk1 : 1 ≤ k) (hk2 : k ≤ 5)
    (h3 : T ≠ []) (h4 : '\n' ∉ T) :
    (convert_headingsL (List.replicate k '#' ++ ' ' :: T)
        = sectionCmd k ++ '\x7b' :: (T ++ ['\x7d'])) ∧
    convert "# Hi" false = "\\textbackslash\x7b\x7dsection\\textbackslash\x7b\x7d\x7bHi\\textbackslash\x7b\x7d\x7d" ∧
    occursIn "\\section".data (convert "# Hi" false).data = false := by
  refine ⟨?_, by decide, by decide⟩
  have hnl : '\n' ∉ List.replicate k '#' ++ ' ' :: T := by
    intro hmem
    rcases List.mem_append.mp hmem with ha | hb
    · exact absurd (List.eq_of_mem_replicate ha) (by decide)
    · rcases List.mem_cons.mp hb with hc | hd
      · exact absurd hc (by decide)
      · exact h4 hd
  rw [convert_headingsL_line _ hnl]
  interval_cases k
  · rw [headingSub_match 1 _ T h3,
      show "\\section".data ++ '\x7b' :: (T ++ ['\x7d'])
        = '\\' :: ("section".data ++ '\x7b' :: (T ++ ['\x7d'])) from rfl,
      headingSub_ne_hash 2 _ '\\' _ (by decide) (by decide),
      headingSub_ne_hash 3 _ '\\' _ (by decide) (by decide),
      headingSub_ne_hash 4 _ '\\' _ (by decide) (by decide),
      headingSub_ne_hash 5 _ '\\' _ (by decide) (by decide)]
    rfl
  · rw [headingSub_pre 1 2 _ T (by omega), headingSub_match 2 _ T h3,
      show "\\subsection".data ++ '\x7b' :: (T ++ ['\x7d'])
        = '\\' :: ("subsection".data ++ '\x7b' :: (T ++ ['\x7d'])) from rfl,
      headingSub_ne_hash 3 _ '\\' _ (by decide) (by decide),
      headingSub_ne_hash 4 _ '\\' _ (by decide) (by decide),
      headingSub_ne_hash 5 _ '\\' _ (by decide) (by decide)]
    rfl
  · rw [headingSub_pre 1 3 _ T (by omega), headingSub_pre 2 3 _ T (by omega),
      headingSub_match 3 _ T h3,
      show "\\subsubsection".data ++ '\x7b' :: (T ++ ['\x7d'])
        = '\\' :: ("subsubsection".data ++ '\x7b' :: (T ++ ['\x7d'])) from rfl,
      headingSub_ne_hash 4 _ '\\' _ (by decide) (by decide),
      headingSub_ne_hash 5 _ '\\' _ (by decide) (by decide)]
    rfl
  · rw [headingSub_pre 1 4 _ T (by omega), headingSub_pre 2 4 _ T (by omega),
      headingSub_pre 3 4 _ T (by omega), headingSub_match 4 _ T h3,
      show "\\paragraph".data ++ '\x7b' :: (T ++ ['\x7d'])
        = '\\' :: ("paragraph".data ++ '\x7b' :: (T ++ ['\x7d'])) from rfl,
      headingSub_ne_hash 5 _ '\\' _ (by decide) (by decide)]
    rfl
  · rw [headingSub_pre 1 5 _ T (by omega), headingSub_pre 2 5 _ T (by omega),
      headingSub_pre 3 5 _ T (by omega), headingSub_pre 4 5 _ T (by omega),
      headingSub_match 5 _ T h3]
    rfl

/-- C7 witness: depth 2 with text `Hi`. -/
theorem claim_C7_witness :
    (convert_headingsL (List.replicate 2 '#' ++ ' ' :: ['H', 'i'])
        = sectionCmd 2 ++ '\x7b' :: (['H', 'i'] ++ ['\x7d'])) ∧
    convert "# Hi" false = "\\textbackslash\x7b\x7dsection\\textbackslash\x7b\x7d\x7bHi\\textbackslash\x7b\x7d\x7d" ∧
    occursIn "\\section".data (convert "# Hi" false).data = false :=
  claim_C7_heading_depths 2 ['H', 'i'] (by decide) (by decide) (by decide) (by decide)

/-- A single bullet line makes `listsLoop` open an itemize block, emit the
item, and close the block at end of input. -/
theorem listsLoop_single_bullet (l : List Char) (n : Nat) (t : List Char)
    (hb : bulletRe l = some (n, t)) :
    listsLoop [l] false false
      = ["\\begin\x7bitemize\x7d".data, itemLine n t, "\\end\x7bitemize\x7d".data] := by
  simp [listsLoop, hb]

/-- C5 counterexample: the claim says a matching bullet line is converted
by the full pipeline into an item command preceded by literal indent
spaces; for the input `  - a` (nesting level 1) neither `  \item a` nor
even `\item` occurs in the full conversion's output (the indent became an
`\hspace` command and the escaping pass mangled the backslash). -/
theorem claim_C5_counterexample :
    occursIn "  \\item a".data (convert "  - a" false).data = false ∧
    occursIn "\\item".data (convert "  - a" false).data = false := by
  refine ⟨by decide, by decide⟩

/-- C5 amended: it is the list-restructuring pass that converts a line of
optional whitespace, a bullet marker (`*`, `+` or `-`), a space and
non-empty text into an item command inside a bullet block, preceded by
literal spaces encoding nesting level `len(ws) // 2`; later passes rewrite
those spaces and the command's characters. -/
theorem claim_C5_bullet_line (ws t : List Char) (m : Char)
    (hws : ∀ c ∈ ws, pyIsSpace c = true) (hwsn : '\n' ∉ ws)
    (hm : m = '*' ∨ m = '+' ∨ m = '-') (ht : t ≠ []) (htn : '\n' ∉ t) :
    convert_listsL (ws ++ m :: ' ' :: t) =
      "\\begin\x7bitemize\x7d".data ++
        ('\n' :: (List.replicate (2 * (ws.length / 2)) ' ' ++
          ("\\item ".data ++ (t ++ ('\n' :: "\\end\x7bitemize\x7d".data))))) := by
  have hnl : '\n' ∉ ws ++ m :: ' ' :: t := by
    intro hmem
    rcases List.mem_append.mp hmem with ha | hb
    · exact hwsn ha
    · rcases List.mem_cons.mp hb with hc | hd
      · rcases hm with h | h | h <;> subst h <;> exact absurd hc (by decide)
      · rcases List.mem_cons.mp hd with he | hf
        · exact absurd he (by decide)
        · exact htn hf
  rw [convert_listsL, splitNl_no_nl _ hnl,
    listsLoop_single_bullet _ _ _ (bulletRe_app ws t m hws hm ht)]
  simp [joinNl, itemLine, List.append_assoc]

/-- C5 witness: the bullet line `  - a` (two-space indent, nesting level 1)
through the list pass alone. -/
theorem claim_C5_witness :
    convert_listsL ([' ', ' '] ++ '-' :: ' ' :: ['a']) =
      "\\begin\x7bitemize\x7d".data ++
        ('\n' :: (List.replicate (2 * (([' ', ' '] : List Char).length / 2)) ' ' ++
          ("\\item ".data ++ (['a'] ++ ('\n' :: "\\end\x7bitemize\x7d".data))))) :=
  claim_C5_bullet_line [' ', ' '] ['a'] '-' (by decide) (by decide) (by decide) (by decide)
    (by decide)

/-- C10: for every input, converting with the document-structure flag set
yields exactly the fixed preamble, then the conversion of the same text
with the flag unset, then the fixed postamble. -/
theorem claim_C10_wrapper_decomposition (s : String) :
    convert s true = latexPreamble ++ convert s false ++ latexPostamble :=
  rfl

end MdToLatex
